import Mathlib

/-!
Shallow embedding of the `ZoomDesktop` pan/zoom/pin image viewer
(src/ZoomDesktop.tsx).  Numbers are modelled by exact rationals.
The component's refs and React states are collected in one record
`EngineState`; each event handler of the source becomes a state
transformer; the JSX render expressions become functions of the state.
-/

set_option autoImplicit false

namespace Woomage

/-- A 2D point or offset, pixels. -/
structure Point where
  x : ℚ
  y : ℚ
  deriving DecidableEq, Repr

/-- `imageDataRef`: intrinsic size of the loaded image, default `{1,1}`. -/
structure ImageData where
  width : ℚ
  height : ℚ
  deriving DecidableEq, Repr

/-- `offsetDataRef`: base centering offset plus drag offset cache. -/
structure OffsetData where
  baseX : ℚ
  baseY : ℚ
  dragX : ℚ
  dragY : ℚ
  deriving DecidableEq, Repr

/-- `zoomDataRef`: min, max and current zoom (cached alongside `zoomLevel`). -/
structure ZoomData where
  min : ℚ
  max : ℚ
  current : ℚ
  deriving DecidableEq, Repr

/-- The whole component state: refs (`imageDataRef`, `containerDataRef`,
`offsetDataRef`, `zoomDataRef`, `dragDataRef`) and React states
(`shouldDisplayModal`, `dragOffset`, `zoomLevel`, `pin`).
`imageRefSet` models whether `containerDataRef.current.imageRef` is non-null. -/
structure EngineState where
  shouldDisplayModal : Bool
  imageData : ImageData
  containerWidth : ℚ
  containerHeight : ℚ
  imageRefSet : Bool
  offsetData : OffsetData
  zoomData : ZoomData
  isDragging : Bool
  dragOffset : Point
  zoomLevel : ℚ
  pin : Point
  deriving DecidableEq, Repr

/-- Initial values of all refs and states, as declared in the source. -/
def initialState : EngineState where
  shouldDisplayModal := false
  imageData := ⟨1, 1⟩
  containerWidth := 1
  containerHeight := 1
  imageRefSet := false
  offsetData := ⟨0, 0, 0, 0⟩
  zoomData := ⟨1, 3, 1⟩
  isDragging := false
  dragOffset := ⟨0, 0⟩
  zoomLevel := 1
  pin := ⟨0, 0⟩

/-- `clamp(x, min, max) = Math.max(min, Math.min(x, max))`. -/
def clamp (x mn mx : ℚ) : ℚ := max mn (min x mx)

/-- `Math.max(imageDim * zoom - containerDim, 0)`, the expression computed
inline (as `oversizeX` / `oversizeY`) in `zoomOut` and `onDragMove`. -/
def oversize (imageDim containerDim zoom : ℚ) : ℚ :=
  max (imageDim * zoom - containerDim) 0

/-- Per-axis clamping of an offset to `[-oversize/2, oversize/2]`, exactly the
two `clamp` calls performed inline in `zoomOut` and `onDragMove`. -/
def clampOffset (offset : Point) (image : ImageData)
    (containerWidth containerHeight zoom : ℚ) : Point :=
  ⟨clamp offset.x (-(oversize image.width containerWidth zoom) / 2)
      (oversize image.width containerWidth zoom / 2),
   clamp offset.y (-(oversize image.height containerHeight zoom) / 2)
      (oversize image.height containerHeight zoom / 2)⟩

/-- The zoom range computed in `onLoadContainer`: `zl = 1` unless the image is
strictly larger than the container on some axis, in which case
`zl = Math.min(containerWidth / imageWidth, containerHeight / imageHeight)`;
the maximum is the constant 3. -/
structure ZoomRange where
  min : ℚ
  max : ℚ
  deriving DecidableEq, Repr

/-- The `let zl = 1; if (imageWidth > containerWidth || imageHeight >
containerHeight) zl = Math.min(...)` computation of `onLoadContainer`,
together with the constant maximum 3. -/
def computeRange (image : ImageData) (containerWidth containerHeight : ℚ) :
    ZoomRange :=
  ⟨if image.width > containerWidth ∨ image.height > containerHeight then
      min (containerWidth / image.width) (containerHeight / image.height)
    else 1,
   3⟩

/-- `onToggleModal`: flips the modal visibility and nothing else. -/
def onToggleModal (s : EngineState) : EngineState :=
  { s with shouldDisplayModal := !s.shouldDisplayModal }

/-- The `img.onload` handler: records the intrinsic image size. -/
def recordImageMetrics (w h : ℚ) (s : EngineState) : EngineState :=
  { s with imageData := ⟨w, h⟩ }

/-- `onLoadContainer` with a non-null ref of size `cw × ch`: records the
container size, computes the fit zoom and stores it as min/current/level,
computes the base centering offset, and resets the drag offset. -/
def onLoadContainer (cw ch : ℚ) (s : EngineState) : EngineState :=
  let zl := (computeRange s.imageData cw ch).min
  { s with
    containerWidth := cw
    containerHeight := ch
    zoomData := ⟨zl, 3, zl⟩
    zoomLevel := zl
    offsetData := ⟨(s.imageData.width - cw) / 2, (s.imageData.height - ch) / 2, 0, 0⟩
    dragOffset := ⟨0, 0⟩ }

/-- `zoomIn`: one clamped `+0.1` step; updates both the cached
`zoomData.current` and the `zoomLevel` state. -/
def zoomIn (s : EngineState) : EngineState :=
  let nz := clamp (s.zoomLevel + 1/10) s.zoomData.min s.zoomData.max
  { s with
    zoomData := { s.zoomData with current := nz }
    zoomLevel := nz }

/-- `zoomOut`: one clamped `-0.1` step, then re-clamps the drag offset to the
oversize bounds at the new zoom. -/
def zoomOut (s : EngineState) : EngineState :=
  let nz := clamp (s.zoomLevel - 1/10) s.zoomData.min s.zoomData.max
  let p := clampOffset s.dragOffset s.imageData s.containerWidth s.containerHeight nz
  { s with
    zoomData := { s.zoomData with current := nz }
    zoomLevel := nz
    dragOffset := p
    offsetData := { s.offsetData with dragX := p.x, dragY := p.y } }

/-- `onDragStart` (mousedown): marks the drag session active. -/
def onDragStart (s : EngineState) : EngineState :=
  { s with isDragging := true }

/-- `onDragMove` (mousemove) with movement `(dx, dy)`: when dragging, moves the
drag offset by `-(dx, dy)` clamped to the oversize bounds at the cached current
zoom; otherwise does nothing. -/
def onDragMove (dx dy : ℚ) (s : EngineState) : EngineState :=
  if s.isDragging then
    let p := clampOffset ⟨s.dragOffset.x - dx, s.dragOffset.y - dy⟩ s.imageData
      s.containerWidth s.containerHeight s.zoomData.current
    { s with
      dragOffset := p
      offsetData := { s.offsetData with dragX := p.x, dragY := p.y } }
  else s

/-- `onDragEnd` (mouseup): marks the drag session inactive. -/
def onDragEnd (s : EngineState) : EngineState :=
  { s with isDragging := false }

/-- `(e.clientX - box.x) / zoom` per axis: the screen-to-image-local inverse
mapping computed inline in `onPinPlace`. -/
def screenToImageLocal (screen origin : Point) (zoom : ℚ) : Point :=
  ⟨(screen.x - origin.x) / zoom, (screen.y - origin.y) / zoom⟩

/-- `onPinPlace` (dblclick): if the image handle is available, stores the
double-click position mapped to image-local coordinates at the cached current
zoom, where `(boxX, boxY)` is the on-screen origin of the rendered image
(`getBoundingClientRect`); otherwise does nothing. -/
def onPinPlace (clientX clientY boxX boxY : ℚ) (s : EngineState) : EngineState :=
  if s.imageRefSet then
    { s with pin := screenToImageLocal ⟨clientX, clientY⟩ ⟨boxX, boxY⟩ s.zoomData.current }
  else s

/-- `onLoadImage` with a non-null ref: records that the image handle is
available (the event-listener registration is not part of the state). -/
def onLoadImage (s : EngineState) : EngineState :=
  { s with imageRefSet := true }

/-- The CSS transform parameters of the image div:
`translateX(-baseX - dragOffset.x) translateY(-baseY - dragOffset.y) scale(zoomLevel)`. -/
structure Placement where
  translateX : ℚ
  translateY : ℚ
  scale : ℚ
  deriving DecidableEq, Repr

/-- The placement formula of the render: translate by the negated base and drag
offsets, scale by the zoom. -/
def placement (base pan : Point) (zoom : ℚ) : Placement :=
  ⟨-base.x - pan.x, -base.y - pan.y, zoom⟩

/-- The transform the JSX applies to the image div in state `s`. -/
def renderPlacement (s : EngineState) : Placement :=
  placement ⟨s.offsetData.baseX, s.offsetData.baseY⟩ s.dragOffset s.zoomLevel

/-- What the render surface receives for the pin marker: its `left`/`top`
position and the `scale(1 / zoomLevel)` inverse scale. -/
structure PinMarker where
  x : ℚ
  y : ℚ
  inverseScale : ℚ
  deriving DecidableEq, Repr

/-- The pin marker the JSX renders: the marker div is emitted whenever the
modal is displayed (it sits unconditionally inside the large-image div), at
the stored pin position with inverse scale `1 / zoomLevel`. -/
def renderPinMarker (s : EngineState) : Option PinMarker :=
  if s.shouldDisplayModal then some ⟨s.pin.x, s.pin.y, 1 / s.zoomLevel⟩ else none

/-- Modelled from the spec: the render surface semantics is not part of the
source (the browser applies the CSS transform).  Per §4.4 the placement
translates in unscaled image-pixel space and then scales about the container's
visual origin, so the image-local point `p` appears on screen at
`containerOrigin + scale • (p + translate)`. -/
def renderedScreenPoint (containerOrigin : Point) (pl : Placement) (p : Point) :
    Point :=
  ⟨containerOrigin.x + pl.scale * (p.x + pl.translateX),
   containerOrigin.y + pl.scale * (p.y + pl.translateY)⟩

/-- The on-screen origin of the rendered image: where image-local `(0,0)`
lands, i.e. what `getBoundingClientRect().x/.y` reports for a positive scale. -/
def renderedImageOrigin (containerOrigin : Point) (pl : Placement) : Point :=
  renderedScreenPoint containerOrigin pl ⟨0, 0⟩

/-- The discrete input events one viewer page can receive. -/
inductive Ev where
  | pointerDown
  | pointerUp
  | pointerMove (dx dy : ℚ)
  | zoomInStep
  | zoomOutStep
  | doubleClick (clientX clientY boxX boxY : ℚ)
  | toggleModal
  | loadImage (w h : ℚ)
  | loadContainer (cw ch : ℚ)
  | loadImageRef
  deriving DecidableEq, Repr

/-- Dispatch of one event to its handler. -/
def step (s : EngineState) : Ev → EngineState
  | Ev.pointerDown => onDragStart s
  | Ev.pointerUp => onDragEnd s
  | Ev.pointerMove dx dy => onDragMove dx dy s
  | Ev.zoomInStep => zoomIn s
  | Ev.zoomOutStep => zoomOut s
  | Ev.doubleClick cx cy bx b => onPinPlace cx cy bx b s
  | Ev.toggleModal => onToggleModal s
  | Ev.loadImage w h => recordImageMetrics w h s
  | Ev.loadContainer cw ch => onLoadContainer cw ch s
  | Ev.loadImageRef => onLoadImage s

/-- Processing a list of events in arrival order. -/
def run (s : EngineState) (evs : List Ev) : EngineState :=
  evs.foldl step s

/-- The six operations of one open viewer session (no reload / reopen). -/
def SessionEvent : Ev → Prop
  | Ev.pointerDown => True
  | Ev.pointerUp => True
  | Ev.pointerMove _ _ => True
  | Ev.zoomInStep => True
  | Ev.zoomOutStep => True
  | Ev.doubleClick _ _ _ _ => True
  | _ => False

/-- Dimension inputs recorded by load events are strictly positive. -/
def PosDims : Ev → Prop
  | Ev.loadImage w h => 0 < w ∧ 0 < h
  | Ev.loadContainer cw ch => 0 < cw ∧ 0 < ch
  | _ => True

/-- The state right after image load, container mount and image-ref
registration: one fully initialized viewer session. -/
def initializedState (iw ih cw ch : ℚ) : EngineState :=
  onLoadImage (onLoadContainer cw ch (recordImageMetrics iw ih initialState))

/-- The session invariant for one open viewer over an image of size `iw × ih`
in a container of size `cw × ch`: the metrics are unchanged, the zoom level
sits inside the stored range, the cached current zoom agrees with the zoom
level, and the pan offset is within half the oversize on each axis. -/
def SessionInv (iw ih cw ch : ℚ) (s : EngineState) : Prop :=
  s.imageData = ⟨iw, ih⟩ ∧
  s.containerWidth = cw ∧
  s.containerHeight = ch ∧
  s.zoomData.min ≤ s.zoomLevel ∧
  s.zoomLevel ≤ s.zoomData.max ∧
  s.zoomData.current = s.zoomLevel ∧
  |s.dragOffset.x| ≤ oversize iw cw s.zoomLevel / 2 ∧
  |s.dragOffset.y| ≤ oversize ih ch s.zoomLevel / 2

/-- Positivity invariant: the recorded image dimensions are positive and both
the zoom level and its cached copy are bounded below by the positive range
minimum. -/
def PosInv (s : EngineState) : Prop :=
  0 < s.imageData.width ∧
  0 < s.imageData.height ∧
  0 < s.zoomData.min ∧
  s.zoomData.min ≤ s.zoomLevel ∧
  s.zoomData.min ≤ s.zoomData.current

/-- A concrete trace: load a 2000 × 1000 image, open the viewer, mount a
500 × 500 container, register the image handle, place a pin, press the
pointer, close the viewer and reopen it (remounting the container). -/
def reopenTrace : List Ev :=
  [Ev.loadImage 2000 1000, Ev.toggleModal, Ev.loadContainer 500 500,
   Ev.loadImageRef, Ev.doubleClick 10 14 0 0, Ev.pointerDown,
   Ev.toggleModal, Ev.toggleModal, Ev.loadContainer 500 500]

/-! ### Helper lemmas -/

theorem le_clamp (x mn mx : ℚ) : mn ≤ clamp x mn mx :=
  le_max_left _ _

theorem clamp_le (x mn mx : ℚ) (h : mn ≤ mx) : clamp x mn mx ≤ mx :=
  max_le h (min_le_right _ _)

theorem oversize_nonneg (i c z : ℚ) : 0 ≤ oversize i c z :=
  le_max_right _ _

theorem oversize_mono (i c : ℚ) (hi : 0 ≤ i) {z w : ℚ} (hzw : z ≤ w) :
    oversize i c z ≤ oversize i c w :=
  max_le_max (by nlinarith) le_rfl

theorem abs_clamp_le {b : ℚ} (x : ℚ) (hb : 0 ≤ b) :
    |clamp x (-b) b| ≤ b := by
  rw [abs_le]
  exact ⟨le_clamp x (-b) b, clamp_le x (-b) b (by linarith)⟩

theorem le_clamp_add {z d mn mx : ℚ} (hmx : z ≤ mx) (hd : 0 ≤ d) :
    z ≤ clamp (z + d) mn mx :=
  le_max_of_le_right (le_min (by linarith) hmx)

theorem computeRange_min_le_one (image : ImageData) (cw ch : ℚ)
    (hiw : 0 < image.width) (hih : 0 < image.height) :
    (computeRange image cw ch).min ≤ 1 := by
  unfold computeRange
  rcases lt_or_le cw image.width with h | h
  · rw [if_pos (Or.inl h)]
    exact le_trans (min_le_left _ _) (le_of_lt ((div_lt_one hiw).mpr h))
  · rcases lt_or_le ch image.height with h2 | h2
    · rw [if_pos (Or.inr h2)]
      exact le_trans (min_le_right _ _) (le_of_lt ((div_lt_one hih).mpr h2))
    · rw [if_neg (by push_neg; exact ⟨h, h2⟩)]

theorem computeRange_min_pos (image : ImageData) (cw ch : ℚ)
    (hiw : 0 < image.width) (hih : 0 < image.height)
    (hcw : 0 < cw) (hch : 0 < ch) :
    0 < (computeRange image cw ch).min := by
  unfold computeRange
  split
  · exact lt_min (div_pos hcw hiw) (div_pos hch hih)
  · exact one_pos

/-! ### Claims -/

/-- Claim C1: after `onLoadContainer` records container metrics over recorded
image metrics, the zoom range minimum is 1 when the image fits on both axes and
the fit ratio otherwise, the maximum is 3, the zoom level equals the minimum,
the base offset centers the image, and the pan offset is reset to `(0, 0)`. -/
theorem zd_c1 (s : EngineState) (cw ch : ℚ) :
    (onLoadContainer cw ch s).zoomData.min =
      (if s.imageData.width ≤ cw ∧ s.imageData.height ≤ ch then 1
       else min (cw / s.imageData.width) (ch / s.imageData.height)) ∧
    (onLoadContainer cw ch s).zoomData.max = 3 ∧
    (onLoadContainer cw ch s).zoomLevel = (onLoadContainer cw ch s).zoomData.min ∧
    (onLoadContainer cw ch s).offsetData.baseX = (s.imageData.width - cw) / 2 ∧
    (onLoadContainer cw ch s).offsetData.baseY = (s.imageData.height - ch) / 2 ∧
    (onLoadContainer cw ch s).dragOffset = ⟨0, 0⟩ ∧
    (onLoadContainer cw ch s).offsetData.dragX = 0 ∧
    (onLoadContainer cw ch s).offsetData.dragY = 0 := by
  refine ⟨?_, rfl, rfl, rfl, rfl, rfl, rfl, rfl⟩
  have hmin : (computeRange s.imageData cw ch).min =
      if s.imageData.width > cw ∨ s.imageData.height > ch then
        min (cw / s.imageData.width) (ch / s.imageData.height)
      else 1 := rfl
  show (computeRange s.imageData cw ch).min = _
  rw [hmin]
  by_cases h : s.imageData.width ≤ cw ∧ s.imageData.height ≤ ch
  · have hc : ¬(s.imageData.width > cw ∨ s.imageData.height > ch) := by
      push_neg
      exact h
    rw [if_neg hc, if_pos h]
  · have hc : s.imageData.width > cw ∨ s.imageData.height > ch := by
      rcases not_and_or.mp h with h1 | h1
      · exact Or.inl (not_le.mp h1)
      · exact Or.inr (not_le.mp h1)
    rw [if_pos hc, if_neg h]

/-- Claim C4: `zoomIn` applies exactly one clamped `+0.1` step and `zoomOut`
exactly one clamped `-0.1` step, and for `current ∈ [min, max]` and any delta
the clamped step stays within `[min, max]`. -/
theorem zd_c4 (s : EngineState) (mn mx cur d : ℚ) :
    (zoomIn s).zoomLevel = clamp (s.zoomLevel + 1/10) s.zoomData.min s.zoomData.max ∧
    (zoomOut s).zoomLevel = clamp (s.zoomLevel - 1/10) s.zoomData.min s.zoomData.max ∧
    (mn ≤ cur → cur ≤ mx →
      mn ≤ clamp (cur + d) mn mx ∧ clamp (cur + d) mn mx ≤ mx) :=
  ⟨rfl, rfl, fun h1 h2 =>
    ⟨le_clamp _ _ _, clamp_le _ _ _ (le_trans h1 h2)⟩⟩

theorem zd_c4_witness :
    (zoomIn initialState).zoomLevel =
      clamp (initialState.zoomLevel + 1/10) initialState.zoomData.min
        initialState.zoomData.max ∧
    (0:ℚ) ≤ clamp (1 + 5) 0 3 ∧ clamp (1 + 5) 0 3 ≤ 3 := by
  obtain ⟨h1, _, h3⟩ := zd_c4 initialState 0 3 1 5
  obtain ⟨h4, h5⟩ := h3 (by norm_num) (by norm_num)
  exact ⟨h1, h4, h5⟩

/-- Claim C8: when the image handle is not available, `onPinPlace` changes
nothing; when it is, it replaces the pin with the click position translated by
the rendered image's on-screen origin and divided by the current zoom. -/
theorem zd_c8 (s : EngineState) (clientX clientY boxX boxY : ℚ) :
    (s.imageRefSet = false → onPinPlace clientX clientY boxX boxY s = s) ∧
    (s.imageRefSet = true → onPinPlace clientX clientY boxX boxY s =
      { s with pin := ⟨(clientX - boxX) / s.zoomData.current,
                       (clientY - boxY) / s.zoomData.current⟩ }) := by
  constructor
  · intro h
    simp [onPinPlace, h]
  · intro h
    simp [onPinPlace, h, screenToImageLocal]

theorem Point.ext' {a b : Point} (hx : a.x = b.x) (hy : a.y = b.y) : a = b := by
  cases a
  cases b
  cases hx
  cases hy
  rfl

theorem computeRange_min_def (image : ImageData) (cw ch : ℚ) :
    (computeRange image cw ch).min =
      if image.width > cw ∨ image.height > ch then
        min (cw / image.width) (ch / image.height)
      else 1 := rfl

/-- Claim C3: the drag machine is a two-state machine on `isDragging`:
pointer-down enters `Dragging`, pointer-up enters `Idle`, pointer-move while
dragging stays dragging and clamps the moved pan offset at the current zoom,
and pointer-move while idle changes nothing. -/
theorem zd_c3 (s : EngineState) (dx dy : ℚ) :
    (onDragStart s = { s with isDragging := true }) ∧
    (onDragEnd s = { s with isDragging := false }) ∧
    (s.isDragging = true →
      (onDragMove dx dy s).isDragging = true ∧
      onDragMove dx dy s =
        (let p := clampOffset ⟨s.dragOffset.x - dx, s.dragOffset.y - dy⟩
          s.imageData s.containerWidth s.containerHeight s.zoomData.current
         { s with
           dragOffset := p
           offsetData := { s.offsetData with dragX := p.x, dragY := p.y } })) ∧
    (s.isDragging = false → onDragMove dx dy s = s) := by
  refine ⟨rfl, rfl, fun h => ⟨?_, ?_⟩, fun h => ?_⟩
  · simp [onDragMove, h]
  · simp [onDragMove, h]
  · simp [onDragMove, h]

theorem zd_c3_witness :
    onDragMove 1 2 initialState = initialState ∧
    (onDragMove 1 2 (onDragStart initialState)).isDragging = true :=
  ⟨(zd_c3 initialState 1 2).2.2.2 rfl,
   ((zd_c3 (onDragStart initialState) 1 2).2.2.1 rfl).1⟩

/-- Claim C5: for any image-local point, composing the placement transform
with `screenToImageLocal` at the same zoom and the rendered image's on-screen
origin recovers the point exactly, for any zoom inside the computed range. -/
theorem zd_c5 (image : ImageData) (cw ch z : ℚ) (base pan p containerOrigin : Point)
    (hiw : 0 < image.width) (hih : 0 < image.height)
    (hcw : 0 < cw) (hch : 0 < ch)
    (hmin : (computeRange image cw ch).min ≤ z)
    (hmax : z ≤ (computeRange image cw ch).max) :
    screenToImageLocal
      (renderedScreenPoint containerOrigin (placement base pan z) p)
      (renderedImageOrigin containerOrigin (placement base pan z)) z = p := by
  have hz : 0 < z :=
    lt_of_lt_of_le (computeRange_min_pos image cw ch hiw hih hcw hch) hmin
  have hz' : z ≠ 0 := ne_of_gt hz
  unfold screenToImageLocal renderedImageOrigin renderedScreenPoint placement
  refine Point.ext' ?_ ?_ <;>
  · field_simp
    ring

theorem zd_c5_witness :
    (0:ℚ) < 2 ∧ (0:ℚ) < 3 ∧ (0:ℚ) < 1 ∧
    (computeRange ⟨2, 3⟩ 1 1).min ≤ 1 ∧ (1:ℚ) ≤ (computeRange ⟨2, 3⟩ 1 1).max ∧
    screenToImageLocal
      (renderedScreenPoint ⟨11, 12⟩ (placement ⟨5, 6⟩ ⟨7, 8⟩ 1) ⟨9, 10⟩)
      (renderedImageOrigin ⟨11, 12⟩ (placement ⟨5, 6⟩ ⟨7, 8⟩ 1)) 1 = ⟨9, 10⟩ := by
  have hmin : (computeRange ⟨2, 3⟩ 1 1).min ≤ 1 := by
    rw [computeRange_min_def]
    norm_num [min_le_iff]
  have hmax : (1:ℚ) ≤ (computeRange ⟨2, 3⟩ 1 1).max := by norm_num [computeRange]
  exact ⟨by norm_num, by norm_num, by norm_num, hmin, hmax,
    zd_c5 ⟨2, 3⟩ 1 1 1 ⟨5, 6⟩ ⟨7, 8⟩ ⟨9, 10⟩ ⟨11, 12⟩
      (by norm_num) (by norm_num) (by norm_num) (by norm_num) hmin hmax⟩

/-- Claim C9 fails as stated: for image `(1,1)` and container `(2,2)` the
computed minimum is 1, so `ZoomRange.min ≤ 1` holds, yet the image is not at
least as large as the container on any axis. -/
theorem zd_c9_counterexample :
    ¬(((computeRange ⟨1, 1⟩ 2 2).min ≤ 1) ↔ ((1:ℚ) ≥ 2 ∨ (1:ℚ) ≥ 2)) := by
  intro h
  have h1 : (computeRange ⟨1, 1⟩ 2 2).min = 1 := by
    rw [computeRange_min_def]
    norm_num
  rcases h.mp (le_of_eq h1) with h2 | h2 <;> norm_num at h2

/-- Claim C9, amended: for positive sizes, `ZoomRange.min ≤ 1` always holds,
`ZoomRange.min < 1` if and only if the image is strictly larger than the
container on some axis, and `ZoomRange.min ≤ ZoomRange.max`. -/
theorem zd_c9_amended (image : ImageData) (cw ch : ℚ)
    (hiw : 0 < image.width) (hih : 0 < image.height)
    (hcw : 0 < cw) (hch : 0 < ch) :
    ((computeRange image cw ch).min < 1 ↔ (cw < image.width ∨ ch < image.height)) ∧
    (computeRange image cw ch).min ≤ 1 ∧
    (computeRange image cw ch).min ≤ (computeRange image cw ch).max := by
  have hle := computeRange_min_le_one image cw ch hiw hih
  have hmax : (computeRange image cw ch).max = 3 := rfl
  refine ⟨⟨?_, ?_⟩, hle, by rw [hmax]; linarith⟩
  · intro hlt
    by_contra hc
    push_neg at hc
    have h1 : (computeRange image cw ch).min = 1 := by
      rw [computeRange_min_def, if_neg]
      push_neg
      exact hc
    rw [h1] at hlt
    exact lt_irrefl 1 hlt
  · intro hc
    rw [computeRange_min_def, if_pos hc]
    rcases hc with h | h
    · exact lt_of_le_of_lt (min_le_left _ _) ((div_lt_one hiw).mpr h)
    · exact lt_of_le_of_lt (min_le_right _ _) ((div_lt_one hih).mpr h)

theorem zd_c9_witness :
    ((computeRange ⟨1, 1⟩ 2 2).min < 1 ↔ ((2:ℚ) < 1 ∨ (2:ℚ) < 1)) ∧
    (computeRange ⟨1, 1⟩ 2 2).min ≤ 1 ∧
    (computeRange ⟨1, 1⟩ 2 2).min ≤ (computeRange ⟨1, 1⟩ 2 2).max :=
  zd_c9_amended ⟨1, 1⟩ 2 2 (by norm_num) (by norm_num) (by norm_num) (by norm_num)

theorem zd_c8_witness :
    onPinPlace 3 4 1 2 initialState = initialState ∧
    onPinPlace 3 4 1 2 (onLoadImage initialState) =
      { onLoadImage initialState with pin := ⟨2, 2⟩ } := by
  constructor
  · exact (zd_c8 initialState 3 4 1 2).1 rfl
  · rw [(zd_c8 (onLoadImage initialState) 3 4 1 2).2 rfl]
    norm_num [onLoadImage, initialState]

theorem abs_clamp_oversize (x i c z : ℚ) :
    |clamp x (-(oversize i c z) / 2) (oversize i c z / 2)| ≤ oversize i c z / 2 := by
  have h := oversize_nonneg i c z
  rw [abs_le]
  constructor
  · calc -(oversize i c z / 2) = -(oversize i c z) / 2 := (neg_div _ _).symm
      _ ≤ clamp x (-(oversize i c z) / 2) (oversize i c z / 2) := le_clamp _ _ _
  · exact clamp_le _ _ _ (by linarith)

theorem sessionInv_initializedState (iw ih cw ch : ℚ)
    (hiw : 0 < iw) (hih : 0 < ih) :
    SessionInv iw ih cw ch (initializedState iw ih cw ch) := by
  refine ⟨rfl, rfl, rfl, le_refl _, ?_, rfl, ?_, ?_⟩
  · show (computeRange ⟨iw, ih⟩ cw ch).min ≤ 3
    have := computeRange_min_le_one ⟨iw, ih⟩ cw ch hiw hih
    linarith
  · show |(0:ℚ)| ≤ oversize iw cw ((computeRange ⟨iw, ih⟩ cw ch).min) / 2
    rw [abs_zero]
    exact div_nonneg (oversize_nonneg _ _ _) (by norm_num)
  · show |(0:ℚ)| ≤ oversize ih ch ((computeRange ⟨iw, ih⟩ cw ch).min) / 2
    rw [abs_zero]
    exact div_nonneg (oversize_nonneg _ _ _) (by norm_num)

theorem sessionInv_step (iw ih cw ch : ℚ) (hiw : 0 < iw) (hih : 0 < ih)
    (s : EngineState) (e : Ev) (he : SessionEvent e)
    (h : SessionInv iw ih cw ch s) :
    SessionInv iw ih cw ch (step s e) := by
  obtain ⟨m, idata, scw, sch, ir, od, zd, dg, doff, zlv, pn⟩ := s
  obtain ⟨h1, h2, h3, h4, h5, h6, h7, h8⟩ := h
  obtain ⟨zmn, zmx, zcur⟩ := zd
  simp only at h1 h2 h3 h4 h5 h6 h7 h8
  subst h1 h2 h3 h6
  cases e with
  | pointerDown => exact ⟨rfl, rfl, rfl, h4, h5, rfl, h7, h8⟩
  | pointerUp => exact ⟨rfl, rfl, rfl, h4, h5, rfl, h7, h8⟩
  | doubleClick cx cy bx b =>
    show SessionInv iw ih scw sch (onPinPlace cx cy bx b _)
    unfold onPinPlace
    split
    · exact ⟨rfl, rfl, rfl, h4, h5, rfl, h7, h8⟩
    · exact ⟨rfl, rfl, rfl, h4, h5, rfl, h7, h8⟩
  | pointerMove dx dy =>
    show SessionInv iw ih scw sch (onDragMove dx dy _)
    unfold onDragMove
    split
    · exact ⟨rfl, rfl, rfl, h4, h5, rfl, abs_clamp_oversize _ _ _ _,
        abs_clamp_oversize _ _ _ _⟩
    · exact ⟨rfl, rfl, rfl, h4, h5, rfl, h7, h8⟩
  | zoomInStep =>
    have hup : zcur ≤ clamp (zcur + 1/10) zmn zmx := le_clamp_add h5 (by norm_num)
    have hxo := oversize_mono iw scw hiw.le hup
    have hyo := oversize_mono ih sch hih.le hup
    exact ⟨rfl, rfl, rfl, le_clamp _ _ _, clamp_le _ _ _ (h4.trans h5), rfl,
      h7.trans ((div_le_div_iff_of_pos_right (by norm_num : (0:ℚ) < 2)).mpr hxo),
      h8.trans ((div_le_div_iff_of_pos_right (by norm_num : (0:ℚ) < 2)).mpr hyo)⟩
  | zoomOutStep =>
    exact ⟨rfl, rfl, rfl, le_clamp _ _ _, clamp_le _ _ _ (h4.trans h5), rfl,
      abs_clamp_oversize _ _ _ _, abs_clamp_oversize _ _ _ _⟩
  | toggleModal => exact False.elim he
  | loadImage w h => exact False.elim he
  | loadContainer cw2 ch2 => exact False.elim he
  | loadImageRef => exact False.elim he

theorem sessionInv_run (iw ih cw ch : ℚ) (hiw : 0 < iw) (hih : 0 < ih)
    (evs : List Ev) (hevs : ∀ e ∈ evs, SessionEvent e)
    (s : EngineState) (h : SessionInv iw ih cw ch s) :
    SessionInv iw ih cw ch (run s evs) := by
  induction evs generalizing s with
  | nil => exact h
  | cons e rest IH =>
    exact IH (fun e' he' => hevs e' (List.mem_cons_of_mem e he'))
      (step s e)
      (sessionInv_step iw ih cw ch hiw hih s e (hevs e (List.mem_cons_self e rest)) h)

/-- Claim C2: in every state reachable from the initialized session by
pointer, zoom-step and double-click events, the pan offset stays within half
the oversize of the scaled image on each axis. -/
theorem zd_c2 (iw ih cw ch : ℚ) (hiw : 0 < iw) (hih : 0 < ih)
    (evs : List Ev) (hevs : ∀ e ∈ evs, SessionEvent e) :
    |(run (initializedState iw ih cw ch) evs).dragOffset.x|
      ≤ oversize iw cw (run (initializedState iw ih cw ch) evs).zoomLevel / 2 ∧
    |(run (initializedState iw ih cw ch) evs).dragOffset.y|
      ≤ oversize ih ch (run (initializedState iw ih cw ch) evs).zoomLevel / 2 := by
  obtain ⟨-, -, -, -, -, -, h7, h8⟩ :=
    sessionInv_run iw ih cw ch hiw hih evs hevs (initializedState iw ih cw ch)
      (sessionInv_initializedState iw ih cw ch hiw hih)
  exact ⟨h7, h8⟩

theorem zd_c2_witness :
    (0:ℚ) < 2 ∧
    (∀ e ∈ [Ev.zoomInStep], SessionEvent e) ∧
    |(run (initializedState 2 2 1 1) [Ev.zoomInStep]).dragOffset.x|
      ≤ oversize 2 1 (run (initializedState 2 2 1 1) [Ev.zoomInStep]).zoomLevel / 2 := by
  have hevs : ∀ e ∈ [Ev.zoomInStep], SessionEvent e := by
    intro e he
    simp only [List.mem_singleton] at he
    subst he
    trivial
  exact ⟨by norm_num, hevs, (zd_c2 2 2 1 1 (by norm_num) (by norm_num) _ hevs).1⟩

theorem posInv_step (s : EngineState) (e : Ev) (he : PosDims e)
    (h : PosInv s) : PosInv (step s e) := by
  obtain ⟨m, idata, scw, sch, ir, od, zd, dg, doff, zlv, pn⟩ := s
  obtain ⟨h1, h2, h3, h4, h5⟩ := h
  obtain ⟨iw, ih⟩ := idata
  obtain ⟨zmn, zmx, zcur⟩ := zd
  simp only at h1 h2 h3 h4 h5
  cases e with
  | pointerDown => exact ⟨h1, h2, h3, h4, h5⟩
  | pointerUp => exact ⟨h1, h2, h3, h4, h5⟩
  | doubleClick cx cy bx b =>
    show PosInv (onPinPlace cx cy bx b _)
    unfold onPinPlace
    split
    · exact ⟨h1, h2, h3, h4, h5⟩
    · exact ⟨h1, h2, h3, h4, h5⟩
  | pointerMove dx dy =>
    show PosInv (onDragMove dx dy _)
    unfold onDragMove
    split
    · exact ⟨h1, h2, h3, h4, h5⟩
    · exact ⟨h1, h2, h3, h4, h5⟩
  | zoomInStep => exact ⟨h1, h2, h3, le_clamp _ _ _, le_clamp _ _ _⟩
  | zoomOutStep => exact ⟨h1, h2, h3, le_clamp _ _ _, le_clamp _ _ _⟩
  | toggleModal => exact ⟨h1, h2, h3, h4, h5⟩
  | loadImageRef => exact ⟨h1, h2, h3, h4, h5⟩
  | loadImage w hgt => exact ⟨he.1, he.2, h3, h4, h5⟩
  | loadContainer cw2 ch2 =>
    have hpos : 0 < (computeRange ⟨iw, ih⟩ cw2 ch2).min :=
      computeRange_min_pos ⟨iw, ih⟩ cw2 ch2 h1 h2 he.1 he.2
    exact ⟨h1, h2, hpos, le_refl _, le_refl _⟩

theorem posInv_run (evs : List Ev) (hevs : ∀ e ∈ evs, PosDims e)
    (s : EngineState) (h : PosInv s) : PosInv (run s evs) := by
  induction evs generalizing s with
  | nil => exact h
  | cons e rest IH =>
    exact IH (fun e' he' => hevs e' (List.mem_cons_of_mem e he'))
      (step s e) (posInv_step s e (hevs e (List.mem_cons_self e rest)) h)

/-- Claim C10: when every recorded dimension is positive, every reachable
state has positive image dimensions, cached current zoom and zoom level, so
each division of the engine (fit ratios, pin placement, pin inverse scale)
has a nonzero divisor. -/
theorem zd_c10 (evs : List Ev) (hevs : ∀ e ∈ evs, PosDims e) :
    0 < (run initialState evs).imageData.width ∧
    0 < (run initialState evs).imageData.height ∧
    0 < (run initialState evs).zoomData.current ∧
    0 < (run initialState evs).zoomLevel := by
  obtain ⟨h1, h2, h3, h4, h5⟩ := posInv_run evs hevs initialState
    ⟨by norm_num [initialState], by norm_num [initialState],
     by norm_num [initialState], le_refl _, le_refl _⟩
  exact ⟨h1, h2, lt_of_lt_of_le h3 h5, lt_of_lt_of_le h3 h4⟩

theorem zd_c10_witness :
    (∀ e ∈ [Ev.loadImage 4 3, Ev.loadContainer 2 2], PosDims e) ∧
    0 < (run initialState [Ev.loadImage 4 3, Ev.loadContainer 2 2]).zoomData.current ∧
    0 < (run initialState [Ev.loadImage 4 3, Ev.loadContainer 2 2]).zoomLevel := by
  have hevs : ∀ e ∈ [Ev.loadImage 4 3, Ev.loadContainer 2 2], PosDims e := by
    intro e he
    simp only [List.mem_cons, List.not_mem_nil, or_false] at he
    rcases he with rfl | rfl
    · exact ⟨by norm_num, by norm_num⟩
    · exact ⟨by norm_num, by norm_num⟩
  obtain ⟨-, -, h3, h4⟩ := zd_c10 [Ev.loadImage 4 3, Ev.loadContainer 2 2] hevs
  exact ⟨hevs, h3, h4⟩

/-- Claim C6 fails as stated: after merely opening the viewer, with no
double-click ever delivered, the render surface already receives a pin marker
(at the initial pin position `(0,0)` with inverse scale 1), because the pin
state is initialized to `(0,0)` rather than being absent and the marker is
rendered unconditionally inside the open viewer. -/
theorem zd_c6_counterexample :
    renderPinMarker (run initialState [Ev.toggleModal]) = some ⟨0, 0, 1⟩ ∧
    renderPinMarker (run initialState [Ev.toggleModal]) ≠ none := by
  have h : renderPinMarker (run initialState [Ev.toggleModal]) = some ⟨0, 0, 1⟩ := by
    norm_num [run, step, onToggleModal, initialState, renderPinMarker]
  exact ⟨h, by rw [h]; exact Option.some_ne_none _⟩

/-- Claim C6, amended: the pin position is initialized to `(0, 0)` rather
than absent, and the render surface receives a pin marker whenever the viewer
is open, regardless of whether a placement has occurred; at most one pin
exists, and a placement replaces the pin with the mapped click position,
independently of the previous pin. -/
theorem zd_c6_amended :
    initialState.pin = ⟨0, 0⟩ ∧
    (∀ s : EngineState, (renderPinMarker s).isSome = s.shouldDisplayModal) ∧
    (∀ (s : EngineState) (cx cy bx b : ℚ), s.imageRefSet = true →
      (onPinPlace cx cy bx b s).pin =
        screenToImageLocal ⟨cx, cy⟩ ⟨bx, b⟩ s.zoomData.current) := by
  refine ⟨rfl, fun s => ?_, fun s cx cy bx b h => ?_⟩
  · cases hm : s.shouldDisplayModal <;> simp [renderPinMarker, hm]
  · simp [onPinPlace, h]

theorem zd_c6_witness :
    (renderPinMarker (onToggleModal initialState)).isSome =
      (onToggleModal initialState).shouldDisplayModal ∧
    (onPinPlace 5 6 1 2 (onLoadImage initialState)).pin =
      screenToImageLocal ⟨5, 6⟩ ⟨1, 2⟩ (onLoadImage initialState).zoomData.current :=
  ⟨zd_c6_amended.2.1 (onToggleModal initialState),
   zd_c6_amended.2.2 (onLoadImage initialState) 5 6 1 2 rfl⟩

/-- Claim C7 fails as stated: in the concrete trace that places a pin at
image coordinates `(40, 56)`, presses the pointer, closes the viewer and
reopens it, the remounted state still carries the old pin and an active drag
session, instead of the claimed reset to an absent pin and inactive drag. -/
theorem zd_c7_counterexample :
    (run initialState reopenTrace).pin = ⟨40, 56⟩ ∧
    (run initialState reopenTrace).isDragging = true := by
  norm_num [reopenTrace, run, step, onToggleModal, recordImageMetrics,
    onLoadContainer, onLoadImage, onPinPlace, onDragStart, computeRange,
    screenToImageLocal, initialState]

/-- Claim C7, amended: when the viewer is closed and reopened (remounting the
container), `onLoadContainer` re-records the container metrics, recomputes the
zoom range, and resets ZoomLevel to the recomputed `ZoomRange.min` and
PanOffset to `(0, 0)`; PinPosition and DragSession are NOT reset — they keep
their previous values across the close/reopen cycle. -/
theorem zd_c7_amended (s : EngineState) (cw ch : ℚ) :
    (run s [Ev.toggleModal, Ev.toggleModal, Ev.loadContainer cw ch]).zoomLevel
      = (computeRange s.imageData cw ch).min ∧
    (run s [Ev.toggleModal, Ev.toggleModal, Ev.loadContainer cw ch]).zoomData
      = ⟨(computeRange s.imageData cw ch).min, 3, (computeRange s.imageData cw ch).min⟩ ∧
    (run s [Ev.toggleModal, Ev.toggleModal, Ev.loadContainer cw ch]).dragOffset
      = ⟨0, 0⟩ ∧
    (run s [Ev.toggleModal, Ev.toggleModal, Ev.loadContainer cw ch]).pin = s.pin ∧
    (run s [Ev.toggleModal, Ev.toggleModal, Ev.loadContainer cw ch]).isDragging
      = s.isDragging ∧
    (run s [Ev.toggleModal, Ev.toggleModal, Ev.loadContainer cw ch]).imageData
      = s.imageData :=
  ⟨rfl, rfl, rfl, rfl, rfl, rfl⟩

end Woomage
